import Mathlib

/-!
Verification of the `view` package of go-start: the form-field controller
dispatch (`formfieldcontrollers.go`) and the `Span` view (`span.go`).

Go values are embedded shallowly: the reflected model value of a form field
becomes the inductive `ModelValue`; a field's descriptor (`model.MetaData`)
becomes the structure `MetaData`; the external collaborators `Form` (policy
provider) and `Context`/`Request` (HTTP request data) become structures of
functions, as the spec describes them: controllers only query them.

A Go function that can panic (an unchecked type assertion, a fatal
configuration error) is embedded via the `Outcome` type, whose `panicked`
constructor marks the panic and carries the type or message the Go runtime
would report.  A Go `error` result becomes `Option GoError` / `Outcome`.
-/

set_option autoImplicit false

namespace GoStart

/-- The reflected value of one model field, tagged by its dynamic Go type.
One constructor per `model` type that some controller claims; `other` stands
for any type none of the sixteen registered controllers supports. -/
inductive ModelValue where
  | string (s : String)
  | text (s : String)
  | url (s : String)
  | email (s : String)
  | password (s : String)
  | phone (s : String)
  | bool (b : Bool)
  | choice (value : String)
  | multipleChoice (selected : List String)
  | dynamicChoice (options : List String) (index : Int)
  | date (s : String)
  | dateTime (s : String)
  | float (repr : String)
  | int (i : Int)
  | file (name : String) (data : List Nat)
  | blob (data : List Nat)
  | other (typeName : String)
  deriving Repr, DecidableEq

/-- A model field's descriptor (`model.MetaData`): selector key, reflected
value, and declared struct-tag attributes.  The attributes a controller
reads (`maxlen`, the options list, `cols`/`rows`) are carried directly. -/
structure MetaData where
  selector : String
  value : ModelValue
  maxlen : Option Int := none
  options : List String := []
  attribs : List (String × String) := []
  deriving Repr, DecidableEq

/-- Modelled from the spec: `model.MetaData.Selector()` returns the string
key used to address the field in form-submission data. -/
def MetaData.Selector (md : MetaData) : String := md.selector

/-- Modelled from the spec: `model.String.Maxlen(metaData)` /
`model.Password.Maxlen(metaData)` read the declared max-length struct-tag
attribute of the field descriptor, returning it with an ok flag. -/
def MetaData.Maxlen (md : MetaData) : Option Int := md.maxlen

/-- Modelled from the spec: `model.Choice.Options(metaData)` /
`model.MultipleChoice.Options(metaData)` read the declared options list
from the field descriptor's struct-tag attributes. -/
def MetaData.Options (md : MetaData) : List String := md.options

/-- Modelled from the spec: `model.MetaData.Attrib(StructTagKey, name)`
looks a declarative attribute up by name. -/
def MetaData.Attrib (md : MetaData) (name : String) : Option String :=
  (md.attribs.find? (fun p => p.1 == name)).map Prod.snd

/-- Go error values a controller can return: the unsupported-type error
(`ErrFormFieldTypeNotSupported`, carrying the offending field's descriptor)
or a data-access failure passed through verbatim. -/
inductive GoError where
  | ErrFormFieldTypeNotSupported (metaData : MetaData)
  | dataAccess (msg : String)
  deriving Repr, DecidableEq

/-- Result of a Go call that may return an error or panic.  `panicked`
carries the failed type-assertion target or fatal message. -/
inductive Outcome (α : Type) where
  | ok (a : α)
  | goError (e : GoError)
  | panicked (msg : String)
  deriving Repr

/-- The presentation-policy provider (`Form`), an external collaborator:
controllers query it per field and never mutate it. -/
structure Form where
  FieldInputClass : MetaData → String
  GetInputSize : MetaData → Int
  IsFieldDisabled : MetaData → Bool
  InputFieldPlaceholder : MetaData → String
  FieldLabel : MetaData → String

/-- The HTTP request abstraction: URL-encoded form lookup (`FormValue`
returns the empty string for an absent key, as in `net/http`) and multipart
file retrieval (`FormFile`). -/
structure UploadFile where
  Filename : String
  ReadAll : Except GoError (List Nat)

structure Request where
  FormValue : String → String
  FormFile : String → Except GoError UploadFile

structure Context where
  Request : Request

/-- The type of a `TextField` input (`Type` field in Go). -/
inductive TextFieldType where
  | normal
  | password
  | email
  deriving Repr, DecidableEq

structure TextField where
  Class : String := ""
  Name : String := ""
  Type' : TextFieldType := .normal
  Text : String := ""
  Size : Int := 0
  MaxLength : Int := 0
  Disabled : Bool := false
  Placeholder : String := ""
  deriving Repr, DecidableEq

structure Checkbox where
  Class : String := ""
  Name : String := ""
  Disabled : Bool := false
  Checked : Bool := false
  Label : String := ""
  deriving Repr, DecidableEq

/-- The data model behind a `Select` view: `StringsSelectModel` (options and
currently selected value) or `IndexedStringsSelectModel` (options and
currently selected index). -/
inductive SelectModel where
  | strings (options : List String) (value : String)
  | indexedStrings (options : List String) (index : Int)
  deriving Repr, DecidableEq

structure SelectData where
  Class : String := ""
  Name : String := ""
  Model : SelectModel
  Disabled : Bool := false
  Size : Int := 1
  deriving Repr, DecidableEq

structure FileInputData where
  Class : String := ""
  Name : String := ""
  Disabled : Bool := false
  deriving Repr, DecidableEq

/-- The views a form field controller can build. -/
inductive View where
  | textField (tf : TextField)
  | textArea (cls name text : String) (cols rows : Int) (disabled : Bool) (placeholder : String)
  | checkbox (cb : Checkbox)
  | select (s : SelectData)
  | fileInput (f : FileInputData)
  | html (s : String)
  | views (vs : List View)
  | labeled (label : String) (content : View)
  deriving Repr

/-- Modelled from the spec: `AddStandardLabel(form, view, metaData)` wraps an
input view with the field's label queried from the form. -/
def AddStandardLabel (form : Form) (v : View) (md : MetaData) : View :=
  .labeled (form.FieldLabel md) v

/-- A form field controller (`FormFieldController` interface): a stateless
strategy answering `Supports`, building an input view (`NewInput`) and
binding submitted data back into the model (`SetValue`, returning the
field's new value). -/
structure FormFieldController where
  Supports : MetaData → Form → Bool
  NewInput : Bool → MetaData → Form → Outcome View
  SetValue : Context → MetaData → Form → Outcome ModelValue

/-- An ordered controller list (`FormFieldControllers`). -/
abbrev FormFieldControllers := List FormFieldController

/-- `FormFieldControllers.Supports`: linear scan, true iff some controller
supports the field. -/
def FormFieldControllers.Supports : FormFieldControllers → MetaData → Form → Bool
  | [], _, _ => false
  | c :: cs, md, form =>
    if c.Supports md form then true else FormFieldControllers.Supports cs md form

/-- `FormFieldControllers.NewInput`: linear scan, the first `Supports`-true
controller builds the input; if none supports the field the unsupported-type
error carrying the descriptor is returned. -/
def FormFieldControllers.NewInput : FormFieldControllers → Bool → MetaData → Form → Outcome View
  | [], _, md, _ => .goError (.ErrFormFieldTypeNotSupported md)
  | c :: cs, withLabel, md, form =>
    if c.Supports md form then c.NewInput withLabel md form
    else FormFieldControllers.NewInput cs withLabel md form

/-- `FormFieldControllers.SetValue`: linear scan, the first `Supports`-true
controller binds the value; if none supports the field the unsupported-type
error carrying the descriptor is returned. -/
def FormFieldControllers.SetValue : FormFieldControllers → Context → MetaData → Form → Outcome ModelValue
  | [], _, md, _ => .goError (.ErrFormFieldTypeNotSupported md)
  | c :: cs, ctx, md, form =>
    if c.Supports md form then c.SetValue ctx md form
    else FormFieldControllers.SetValue cs ctx md form

/-- Modelled from the spec: `model.Value.SetString` writes the field's
in-memory value from the raw request form string (the one side effect of
`modelValueControllerBase.SetValue`); string-like kinds store the string
verbatim, numeric kinds parse it, keeping the old value when parsing fails. -/
def ModelValue.SetString (v : ModelValue) (s : String) : ModelValue :=
  match v with
  | .string _ => .string s
  | .text _ => .text s
  | .url _ => .url s
  | .email _ => .email s
  | .password _ => .password s
  | .phone _ => .phone s
  | .bool _ => .bool (s != "")
  | .choice _ => .choice s
  | .multipleChoice sel => .multipleChoice sel
  | .dynamicChoice opts idx => .dynamicChoice opts ((s.toInt?).getD idx)
  | .date _ => .date s
  | .dateTime _ => .dateTime s
  | .float _ => .float s
  | .int i => .int ((s.toInt?).getD i)
  | .file n d => .file n d
  | .blob d => .blob d
  | .other n => .other n

/-- `modelValueControllerBase.SetValue`: asserts the field value to the
`model.Value` interface (a type the model library does not know panics) and
writes it from the request form data under the field's selector. -/
def modelValueControllerBase.SetValue (ctx : Context) (md : MetaData) (_form : Form) : Outcome ModelValue :=
  match md.value with
  | .other _ => .panicked "model.Value"
  | v => .ok (v.SetString (ctx.Request.FormValue md.Selector))

/-- `ModelStringController` (`Supports` is the type assertion to
`*model.String`; `NewInput` builds a text field and clamps `MaxLength` and
`Size` from the declared max length). -/
def ModelStringController : FormFieldController where
  Supports md _form := match md.value with | .string _ => true | _ => false
  NewInput withLabel md form :=
    match md.value with
    | .string s =>
      let textField : TextField :=
        { Class := form.FieldInputClass md
          Name := md.Selector
          Text := s
          Size := form.GetInputSize md
          Disabled := form.IsFieldDisabled md
          Placeholder := form.InputFieldPlaceholder md }
      let textField :=
        match md.Maxlen with
        | some maxlen =>
          { textField with
              MaxLength := maxlen
              Size := if maxlen < textField.Size then maxlen else textField.Size }
        | none => textField
      if withLabel then .ok (AddStandardLabel form (.textField textField) md)
      else .ok (.textField textField)
    | _ => .panicked "*model.String"
  SetValue := modelValueControllerBase.SetValue

/-- `ModelTextController`: builds a text area, reading optional `cols`/`rows`
tag attributes; a malformed integer attribute is fatal (Go panics in
`strconv.Atoi` error handling). -/
def ModelTextController : FormFieldController where
  Supports md _form := match md.value with | .text _ => true | _ => false
  NewInput withLabel md form :=
    match md.value with
    | .text t =>
      let colsParsed : Option (Option Int) :=
        match md.Attrib "cols" with
        | some str => match str.toInt? with
          | some n => some (some n)
          | none => none
        | none => some none
      let rowsParsed : Option (Option Int) :=
        match md.Attrib "rows" with
        | some str => match str.toInt? with
          | some n => some (some n)
          | none => none
        | none => some none
      match colsParsed, rowsParsed with
      | some cols, some rows =>
        let input : View := .textArea (form.FieldInputClass md) md.Selector t
          (cols.getD 0) (rows.getD 0) (form.IsFieldDisabled md) (form.InputFieldPlaceholder md)
        if withLabel then .ok (AddStandardLabel form input md) else .ok input
      | _, _ => .panicked "Error in StandardFormFieldFactory.NewInput()"
    | _ => .panicked "*model.Text"
  SetValue := modelValueControllerBase.SetValue

/-- `ModelUrlController`. -/
def ModelUrlController : FormFieldController where
  Supports md _form := match md.value with | .url _ => true | _ => false
  NewInput withLabel md form :=
    match md.value with
    | .url u =>
      let input : View := .textField
        { Class := form.FieldInputClass md
          Name := md.Selector
          Text := u
          Size := form.GetInputSize md
          Disabled := form.IsFieldDisabled md
          Placeholder := form.InputFieldPlaceholder md }
      if withLabel then .ok (AddStandardLabel form input md) else .ok input
    | _ => .panicked "*model.Url"
  SetValue := modelValueControllerBase.SetValue

/-- `ModelEmailController`. -/
def ModelEmailController : FormFieldController where
  Supports md _form := match md.value with | .email _ => true | _ => false
  NewInput withLabel md form :=
    match md.value with
    | .email e =>
      let input : View := .textField
        { Class := form.FieldInputClass md
          Name := md.Selector
          Type' := .email
          Text := e
          Size := form.GetInputSize md
          Disabled := form.IsFieldDisabled md
          Placeholder := form.InputFieldPlaceholder md }
      if withLabel then .ok (AddStandardLabel form input md) else .ok input
    | _ => .panicked "*model.Email"
  SetValue := modelValueControllerBase.SetValue

/-- `ModelPasswordController`: like the string controller but with a
password-typed text field, including the max-length clamp. -/
def ModelPasswordController : FormFieldController where
  Supports md _form := match md.value with | .password _ => true | _ => false
  NewInput withLabel md form :=
    match md.value with
    | .password p =>
      let textField : TextField :=
        { Class := form.FieldInputClass md
          Name := md.Selector
          Type' := .password
          Text := p
          Size := form.GetInputSize md
          Disabled := form.IsFieldDisabled md
          Placeholder := form.InputFieldPlaceholder md }
      let textField :=
        match md.Maxlen with
        | some maxlen =>
          { textField with
              MaxLength := maxlen
              Size := if maxlen < textField.Size then maxlen else textField.Size }
        | none => textField
      if withLabel then .ok (AddStandardLabel form (.textField textField) md)
      else .ok (.textField textField)
    | _ => .panicked "*model.Password"
  SetValue := modelValueControllerBase.SetValue

/-- `ModelPhoneController`. -/
def ModelPhoneController : FormFieldController where
  Supports md _form := match md.value with | .phone _ => true | _ => false
  NewInput withLabel md form :=
    match md.value with
    | .phone p =>
      let input : View := .textField
        { Class := form.FieldInputClass md
          Name := md.Selector
          Text := p
          Size := form.GetInputSize md
          Disabled := form.IsFieldDisabled md
          Placeholder := form.InputFieldPlaceholder md }
      if withLabel then .ok (AddStandardLabel form input md) else .ok input
    | _ => .panicked "*model.Phone"
  SetValue := modelValueControllerBase.SetValue

/-- `ModelBoolController`: renders a checkbox (the label is set on the
checkbox itself, not via `AddStandardLabel`); `SetValue` writes true iff the
form value under the field's selector is non-empty. -/
def ModelBoolController : FormFieldController where
  Supports md _form := match md.value with | .bool _ => true | _ => false
  NewInput withLabel md form :=
    match md.value with
    | .bool b =>
      let checkbox : Checkbox :=
        { Class := form.FieldInputClass md
          Name := md.Selector
          Disabled := form.IsFieldDisabled md
          Checked := b
          Label := if withLabel then form.FieldLabel md else "" }
      .ok (.checkbox checkbox)
    | _ => .panicked "*model.Bool"
  SetValue ctx md _form :=
    match md.value with
    | .bool _ => .ok (.bool (ctx.Request.FormValue md.Selector != ""))
    | _ => .panicked "*model.Bool"

/-- The condition `len(options) == 0 || options[0] != ""` guarding the
empty-option injection of the choice controllers. -/
def emptyOptionNeeded (options : List String) : Bool :=
  options.length == 0 || options.headD "" != ""

/-- `ModelChoiceController`: renders a select over the declared options,
injecting a leading empty option when the first option is not already
empty. -/
def ModelChoiceController : FormFieldController where
  Supports md _form := match md.value with | .choice _ => true | _ => false
  NewInput withLabel md form :=
    match md.value with
    | .choice value =>
      let options := md.Options
      let options := if emptyOptionNeeded options then [""] ++ options else options
      let input : View := .select
        { Class := form.FieldInputClass md
          Name := md.Selector
          Model := .strings options value
          Disabled := form.IsFieldDisabled md
          Size := 1 }
      if withLabel then .ok (AddStandardLabel form input md) else .ok input
    | _ => .panicked "*model.Choice"
  SetValue := modelValueControllerBase.SetValue

/-- The checkbox row of `ModelMultipleChoiceController.NewInput`: one
checkbox per option, named `<selector>_<index>`, checked iff the option is
in the currently selected set (`m.IsSet`, modelled as list membership). -/
def multipleChoiceBoxes (form : Form) (md : MetaData) (selected : List String) : Nat → List String → List View
  | _, [] => []
  | i, option :: rest =>
    .checkbox
      { Label := option
        Class := form.FieldInputClass md
        Name := md.Selector ++ "_" ++ toString i
        Disabled := form.IsFieldDisabled md
        Checked := selected.contains option } :: multipleChoiceBoxes form md selected (i + 1) rest

/-- The scan of `ModelMultipleChoiceController.SetValue`: walking the
options with their indices, keep exactly those whose indexed form key
`<selector>_<index>` has a non-empty value. -/
def multipleChoiceScan (ctx : Context) (selector : String) : Nat → List String → List String
  | _, [] => []
  | i, option :: rest =>
    if ctx.Request.FormValue (selector ++ "_" ++ toString i) != "" then
      option :: multipleChoiceScan ctx selector (i + 1) rest
    else
      multipleChoiceScan ctx selector (i + 1) rest

/-- `ModelMultipleChoiceController`: renders one checkbox per option;
`SetValue` first clears the selected set (`*m = nil`) and rebuilds it from
the indexed checkboxes of the submission. -/
def ModelMultipleChoiceController : FormFieldController where
  Supports md _form := match md.value with | .multipleChoice _ => true | _ => false
  NewInput withLabel md form :=
    match md.value with
    | .multipleChoice selected =>
      let checkboxes : View := .views (multipleChoiceBoxes form md selected 0 md.Options)
      if withLabel then .ok (AddStandardLabel form checkboxes md) else .ok checkboxes
    | _ => .panicked "*model.MultipleChoice"
  SetValue ctx md _form :=
    match md.value with
    | .multipleChoice _ => .ok (.multipleChoice (multipleChoiceScan ctx md.Selector 0 md.Options))
    | _ => .panicked "*model.MultipleChoice"

/-- `ModelDynamicChoiceController`: like the choice controller but options
and selected index live in the value itself, and the index is shifted by one
when the empty option is injected. -/
def ModelDynamicChoiceController : FormFieldController where
  Supports md _form := match md.value with | .dynamicChoice _ _ => true | _ => false
  NewInput withLabel md form :=
    match md.value with
    | .dynamicChoice options index =>
      let pair := if emptyOptionNeeded options then ([""] ++ options, index + 1) else (options, index)
      let input : View := .select
        { Class := form.FieldInputClass md
          Name := md.Selector
          Model := .indexedStrings pair.1 pair.2
          Disabled := form.IsFieldDisabled md
          Size := 1 }
      if withLabel then .ok (AddStandardLabel form input md) else .ok input
    | _ => .panicked "*model.DynamicChoice"
  SetValue := modelValueControllerBase.SetValue

/-- Modelled from the spec: `model.DateFormat`, the configured date layout
string; date inputs are sized to its literal length. -/
def DateFormat : String := "2006-01-02"

/-- Modelled from the spec: `model.DateTimeFormat`, the configured date-time
layout string. -/
def DateTimeFormat : String := "2006-01-02 15:04:05"

/-- `ModelDateController`: a format hint followed by a text field sized to
the length of the date format. -/
def ModelDateController : FormFieldController where
  Supports md _form := match md.value with | .date _ => true | _ => false
  NewInput withLabel md form :=
    match md.value with
    | .date d =>
      let input : View := .views
        [ .html ("(Format: " ++ DateFormat ++ ")<br/>"),
          .textField
            { Class := form.FieldInputClass md
              Name := md.Selector
              Text := d
              Size := (DateFormat.length : Int)
              Disabled := form.IsFieldDisabled md
              Placeholder := form.InputFieldPlaceholder md } ]
      if withLabel then .ok (AddStandardLabel form input md) else .ok input
    | _ => .panicked "*model.Date"
  SetValue := modelValueControllerBase.SetValue

/-- `ModelDateTimeController`: a format hint followed by a text field sized
to the length of the date-time format. -/
def ModelDateTimeController : FormFieldController where
  Supports md _form := match md.value with | .dateTime _ => true | _ => false
  NewInput withLabel md form :=
    match md.value with
    | .dateTime d =>
      let input : View := .views
        [ .html ("(Format: " ++ DateTimeFormat ++ ")<br/>"),
          .textField
            { Class := form.FieldInputClass md
              Name := md.Selector
              Text := d
              Size := (DateTimeFormat.length : Int)
              Disabled := form.IsFieldDisabled md
              Placeholder := form.InputFieldPlaceholder md } ]
      if withLabel then .ok (AddStandardLabel form input md) else .ok input
    | _ => .panicked "*model.DateTime"
  SetValue := modelValueControllerBase.SetValue

/-- `ModelFloatController`: a text field showing the float's string
rendering; no size or max length. -/
def ModelFloatController : FormFieldController where
  Supports md _form := match md.value with | .float _ => true | _ => false
  NewInput withLabel md form :=
    match md.value with
    | .float r =>
      let input : View := .textField
        { Class := form.FieldInputClass md
          Name := md.Selector
          Text := r
          Disabled := form.IsFieldDisabled md
          Placeholder := form.InputFieldPlaceholder md }
      if withLabel then .ok (AddStandardLabel form input md) else .ok input
    | _ => .panicked "*model.Float"
  SetValue := modelValueControllerBase.SetValue

/-- `ModelIntController`: a text field showing the integer's string
rendering; no size or max length. -/
def ModelIntController : FormFieldController where
  Supports md _form := match md.value with | .int _ => true | _ => false
  NewInput withLabel md form :=
    match md.value with
    | .int i =>
      let input : View := .textField
        { Class := form.FieldInputClass md
          Name := md.Selector
          Text := toString i
          Disabled := form.IsFieldDisabled md
          Placeholder := form.InputFieldPlaceholder md }
      if withLabel then .ok (AddStandardLabel form input md) else .ok input
    | _ => .panicked "*model.Int"
  SetValue := modelValueControllerBase.SetValue

/-- The observable effect of a file or blob `SetValue`: the returned error
(if any), the field's value afterwards, and whether the upload stream was
closed before returning (`defer file.Close()`). -/
structure SetValueTrace where
  err : Option GoError
  value : ModelValue
  closed : Bool
  deriving Repr, DecidableEq

/-- `ModelFileController.SetValue`, instrumented with the stream-close
trace: retrieve the multipart file (an error is returned unmodified, the
stream was never opened), read it fully (a read error is returned
unmodified, the deferred close has run), and only on success store the
uploaded filename and the full payload. -/
def ModelFileController.setValueTraced (ctx : Context) (md : MetaData) (_form : Form) : Outcome SetValueTrace :=
  match md.value with
  | .file name data =>
    match ctx.Request.FormFile md.Selector with
    | .error e => .ok { err := some e, value := .file name data, closed := false }
    | .ok upload =>
      match upload.ReadAll with
      | .error e => .ok { err := some e, value := .file name data, closed := true }
      | .ok bytes => .ok { err := none, value := .file upload.Filename bytes, closed := true }
  | _ => .panicked "*model.File"

/-- `ModelBlobController.SetValue`, instrumented with the stream-close
trace: like the file controller but the multipart header (filename) is
discarded and only the payload is stored (`b.Set(bytes)`). -/
def ModelBlobController.setValueTraced (ctx : Context) (md : MetaData) (_form : Form) : Outcome SetValueTrace :=
  match md.value with
  | .blob data =>
    match ctx.Request.FormFile md.Selector with
    | .error e => .ok { err := some e, value := .blob data, closed := false }
    | .ok upload =>
      match upload.ReadAll with
      | .error e => .ok { err := some e, value := .blob data, closed := true }
      | .ok bytes => .ok { err := none, value := .blob bytes, closed := true }
  | _ => .panicked "*model.Blob"

/-- Forget the close trace, keeping the Go-visible result. -/
def SetValueTrace.toOutcome : Outcome SetValueTrace → Outcome ModelValue
  | .ok t => match t.err with
    | some e => .goError e
    | none => .ok t.value
  | .goError e => .goError e
  | .panicked m => .panicked m

/-- `ModelFileController`: renders a file input; `SetValue` reads the whole
upload into memory. -/
def ModelFileController : FormFieldController where
  Supports md _form := match md.value with | .file _ _ => true | _ => false
  NewInput withLabel md form :=
    let input : View := .fileInput
      { Class := form.FieldInputClass md
        Name := md.Selector
        Disabled := form.IsFieldDisabled md }
    if withLabel then .ok (AddStandardLabel form input md) else .ok input
  SetValue ctx md form := SetValueTrace.toOutcome (ModelFileController.setValueTraced ctx md form)

/-- `ModelBlobController`: renders a file input; `SetValue` reads the whole
upload into memory, discarding the filename. -/
def ModelBlobController : FormFieldController where
  Supports md _form := match md.value with | .blob _ => true | _ => false
  NewInput withLabel md form :=
    let input : View := .fileInput
      { Class := form.FieldInputClass md
        Name := md.Selector
        Disabled := form.IsFieldDisabled md }
    if withLabel then .ok (AddStandardLabel form input md) else .ok input
  SetValue ctx md form := SetValueTrace.toOutcome (ModelBlobController.setValueTraced ctx md form)

/-- Modelled from the spec: the process-wide ordered registration of one
controller per supported model value type (sixteen in all), in the order the
spec enumerates them; registration code is outside this slice. -/
def StandardControllers : FormFieldControllers :=
  [ ModelStringController,
    ModelTextController,
    ModelUrlController,
    ModelEmailController,
    ModelPasswordController,
    ModelPhoneController,
    ModelBoolController,
    ModelChoiceController,
    ModelMultipleChoiceController,
    ModelDynamicChoiceController,
    ModelDateController,
    ModelDateTimeController,
    ModelFloatController,
    ModelIntController,
    ModelFileController,
    ModelBlobController ]

/-- A model value's type is supported iff it is one of the sixteen
registered kinds, i.e. anything but `other`. -/
def ModelValue.isSupported : ModelValue → Bool
  | .other _ => false
  | _ => true

/-- Modelled from the spec: the XML/HTML tag-writing helper behind
`response.XML`.  State: the output written so far, the stack of currently
open tags, and whether the newest open tag still awaits its closing angle
bracket (so attributes can still be appended to it). -/
structure XmlWriter where
  out : String
  openTags : List String := []
  pendingOpen : Bool := false
  deriving Repr, DecidableEq

/-- Modelled from the spec: finish the pending open tag, if any, by writing
its closing angle bracket. -/
def XmlWriter.flushOpen (x : XmlWriter) : XmlWriter :=
  if x.pendingOpen then { x with out := x.out ++ ">", pendingOpen := false } else x

/-- Modelled from the spec: `OpenTag(name)` starts a new element and pushes
it on the open-tag stack; attributes may follow. -/
def XmlWriter.OpenTag (x : XmlWriter) (name : String) : XmlWriter :=
  let x := x.flushOpen
  { out := x.out ++ "<" ++ name, openTags := name :: x.openTags, pendingOpen := true }

/-- Modelled from the spec: `Attrib(key, value)` writes one attribute of the
pending open tag. -/
def XmlWriter.Attrib (x : XmlWriter) (key value : String) : XmlWriter :=
  { x with out := x.out ++ " " ++ key ++ "=\"" ++ value ++ "\"" }

/-- Modelled from the spec: `AttribIfNotDefault(key, value)` writes the
attribute only when the value differs from the type's zero value (for a
string: non-empty). -/
def XmlWriter.AttribIfNotDefault (x : XmlWriter) (key value : String) : XmlWriter :=
  if value != "" then x.Attrib key value else x

/-- Modelled from the spec: `ForceCloseTag` completes the pending open tag
and writes an explicit closing tag for the innermost open element (never the
self-closing short form). -/
def XmlWriter.ForceCloseTag (x : XmlWriter) : XmlWriter :=
  let x := x.flushOpen
  match x.openTags with
  | [] => x
  | t :: rest => { out := x.out ++ "</" ++ t ++ ">", openTags := rest, pendingOpen := false }

/-- Modelled from the spec: writing text content finishes the pending open
tag and appends the text. -/
def XmlWriter.writeContent (x : XmlWriter) (s : String) : XmlWriter :=
  let x := x.flushOpen
  { x with out := x.out ++ s }

/-- The response stream a view renders into. -/
structure Response where
  XML : XmlWriter

/-- A child view of a `Span`, given by its `Render` behaviour on the
response stream. -/
structure SpanChild where
  render : Response → Response × Option GoError

/-- `Span`: an HTML span element with its id (from `ViewBaseWithId`), a CSS
class and an optional content view. -/
structure Span where
  id : String
  Class : String := ""
  Content : Option SpanChild := none

/-- `Span.Render`: open the span tag, always write the id attribute, write
the class attribute only when non-default, render the content (if any)
between the tags, force-close the tag, and return the content's error. -/
def Span.Render (s : Span) (r : Response) : Response × Option GoError :=
  let x := ((r.XML.OpenTag "span").Attrib "id" s.id).AttribIfNotDefault "class" s.Class
  let rerr : Response × Option GoError :=
    match s.Content with
    | none => ({ XML := x }, none)
    | some c => c.render { XML := x }
  ({ XML := rerr.1.XML.ForceCloseTag }, rerr.2)

/-- A well-behaved child view that writes a fixed string as content and
returns a fixed error value. -/
def writerChild (content : String) (err : Option GoError) : SpanChild :=
  { render := fun r => ({ XML := r.XML.writeContent content }, err) }

/-- A presentation-policy provider with default answers, for concrete
evaluations. -/
def exampleForm : Form where
  FieldInputClass _ := ""
  GetInputSize _ := 10
  IsFieldDisabled _ := false
  InputFieldPlaceholder _ := ""
  FieldLabel _ := ""

/-- A request whose every form value is the literal string "false" and that
carries no multipart file. -/
def ctxFalseStr : Context :=
  { Request :=
    { FormValue := fun _ => "false"
      FormFile := fun _ => .error (.dataAccess "missing file") } }

/-- A request with no form data at all. -/
def ctxEmpty : Context :=
  { Request :=
    { FormValue := fun _ => ""
      FormFile := fun _ => .error (.dataAccess "missing file") } }

/-- A request carrying one multipart upload named "x.png" with three bytes,
under every key. -/
def ctxUpload : Context :=
  { Request :=
    { FormValue := fun _ => ""
      FormFile := fun _ => .ok { Filename := "x.png", ReadAll := .ok [1, 2, 3] } } }

/-- A request whose multipart upload exists but fails while being read. -/
def ctxUploadReadFail : Context :=
  { Request :=
    { FormValue := fun _ => ""
      FormFile := fun _ => .ok { Filename := "x.png", ReadAll := .error (.dataAccess "unexpected EOF") } } }

/-- A request where the boxes `m_0` and `m_2` of a checkbox group are
checked. -/
def ctxBoxes02 : Context :=
  { Request :=
    { FormValue := fun k => if k == "m_0" || k == "m_2" then "on" else ""
      FormFile := fun _ => .error (.dataAccess "missing file") } }

def mdString : MetaData := { selector := "name", value := .string "abc" }

def mdStringMax5 : MetaData := { selector := "name", value := .string "abc", maxlen := some 5 }

def mdPasswordMax5 : MetaData := { selector := "pw", value := .password "secret", maxlen := some 5 }

def mdBool : MetaData := { selector := "flag", value := .bool false }

def mdChoiceAB : MetaData := { selector := "c", value := .choice "a", options := ["a", "b"] }

def mdDynAB : MetaData := { selector := "d", value := .dynamicChoice ["a", "b"] 0 }

def mdMulti : MetaData := { selector := "m", value := .multipleChoice ["b"], options := ["a", "b", "c"] }

def mdFile : MetaData := { selector := "f", value := .file "old.txt" [9] }

def mdBlob : MetaData := { selector := "bl", value := .blob [9] }

def mdOther : MetaData := { selector := "o", value := .other "*model.Slice" }

/-- C1: for every controller list and every field,
`FormFieldControllers.NewInput` and `FormFieldControllers.SetValue` dispatch
to the first controller in list order whose `Supports` returns true for the
field, and when no controller in the list supports it, both return
`ErrFormFieldTypeNotSupported` carrying that field's descriptor.  The error
case holds for arbitrary controllers, i.e. uniformly in every controller's
`NewInput` and `SetValue` functions, so none of them is invoked. -/
theorem formFieldControllers_dispatch_first_support
    (cs : FormFieldControllers) (md : MetaData) (form : Form) (withLabel : Bool) (ctx : Context) :
    (∀ cs₁ c cs₂, cs = cs₁ ++ c :: cs₂ →
      (∀ c' ∈ cs₁, c'.Supports md form = false) → c.Supports md form = true →
      FormFieldControllers.NewInput cs withLabel md form = c.NewInput withLabel md form ∧
      FormFieldControllers.SetValue cs ctx md form = c.SetValue ctx md form) ∧
    ((∀ c ∈ cs, c.Supports md form = false) →
      FormFieldControllers.NewInput cs withLabel md form = .goError (.ErrFormFieldTypeNotSupported md) ∧
      FormFieldControllers.SetValue cs ctx md form = .goError (.ErrFormFieldTypeNotSupported md)) := by
  induction cs with
  | nil =>
    constructor
    · intro cs₁ c cs₂ heq
      exact absurd heq (by simp)
    · intro _
      exact ⟨rfl, rfl⟩
  | cons c₀ rest ih =>
    constructor
    · intro cs₁ c cs₂ heq h₁ h₂
      cases cs₁ with
      | nil =>
        simp only [List.nil_append, List.cons.injEq] at heq
        obtain ⟨rfl, rfl⟩ := heq
        exact ⟨by simp [FormFieldControllers.NewInput, h₂],
               by simp [FormFieldControllers.SetValue, h₂]⟩
      | cons d ds =>
        simp only [List.cons_append, List.cons.injEq] at heq
        obtain ⟨rfl, heq⟩ := heq
        have hd : c₀.Supports md form = false := h₁ c₀ (by simp)
        have hds : ∀ c' ∈ ds, c'.Supports md form = false := fun c' hc' => h₁ c' (by simp [hc'])
        have hrec := ih.1 ds c cs₂ heq hds h₂
        exact ⟨by simpa [FormFieldControllers.NewInput, hd] using hrec.1,
               by simpa [FormFieldControllers.SetValue, hd] using hrec.2⟩
    · intro hall
      have hd : c₀.Supports md form = false := hall c₀ (by simp)
      have hrest : ∀ c ∈ rest, c.Supports md form = false := fun c hc => hall c (by simp [hc])
      have hrec := ih.2 hrest
      exact ⟨by simpa [FormFieldControllers.NewInput, hd] using hrec.1,
             by simpa [FormFieldControllers.SetValue, hd] using hrec.2⟩

/-- C1 witness: in the list of the bool controller followed by the string
controller, a string field dispatches to the string controller (the second,
first supporting one); a field of an unregistered type makes `SetValue`
return the unsupported-type error carrying its descriptor. -/
theorem formFieldControllers_dispatch_witness :
    FormFieldControllers.NewInput [ModelBoolController, ModelStringController] false mdString exampleForm
      = ModelStringController.NewInput false mdString exampleForm ∧
    FormFieldControllers.SetValue [ModelBoolController, ModelStringController] ctxEmpty mdOther exampleForm
      = .goError (.ErrFormFieldTypeNotSupported mdOther) := by
  constructor
  · exact ((formFieldControllers_dispatch_first_support
      [ModelBoolController, ModelStringController] mdString exampleForm false ctxEmpty).1
      [ModelBoolController] ModelStringController [] rfl
      (by intro c' hc'; simp only [List.mem_singleton] at hc'; subst hc'; rfl)
      rfl).1
  · exact ((formFieldControllers_dispatch_first_support
      [ModelBoolController, ModelStringController] mdOther exampleForm false ctxEmpty).2
      (by
        intro c hc
        simp only [List.mem_cons, List.mem_singleton, List.not_mem_nil, or_false] at hc
        rcases hc with rfl | rfl <;> rfl)).2

/-- C2 (evidence at the failing input): `ModelStringController.NewInput` on
a field whose declared type is `*model.Bool` does not return
`ErrFormFieldTypeNotSupported` as the interface documentation promises; the
unchecked type assertion to `*model.String` panics. -/
theorem modelStringController_newInput_wrong_type :
    ModelStringController.NewInput false mdBool exampleForm = .panicked "*model.String" := rfl

/-- C3: for every boolean field and every submitted form,
`ModelBoolController.SetValue` writes true to the field iff the form value
under the field's selector is a non-empty string — any non-empty string,
the literal "false" included, yields true; an absent key (which `FormValue`
reports as the empty string) or an empty value yields false. -/
theorem modelBoolController_setValue_nonEmpty (ctx : Context) (md : MetaData) (form : Form) (b : Bool)
    (h : md.value = .bool b) :
    ModelBoolController.SetValue ctx md form = .ok (.bool (ctx.Request.FormValue md.Selector != "")) ∧
    ((ctx.Request.FormValue md.Selector != "") = true ↔ ctx.Request.FormValue md.Selector ≠ "") := by
  obtain ⟨sel, v, ml, opts, att⟩ := md
  cases h
  exact ⟨rfl, by simp [bne_iff_ne]⟩

/-- C3 witness: submitting the literal string "false" sets the field to
true; submitting nothing sets it to false. -/
theorem modelBoolController_setValue_witness :
    ModelBoolController.SetValue ctxFalseStr mdBool exampleForm = .ok (.bool true) ∧
    ModelBoolController.SetValue ctxEmpty mdBool exampleForm = .ok (.bool false) := by
  constructor
  · rw [(modelBoolController_setValue_nonEmpty ctxFalseStr mdBool exampleForm false rfl).1]
    rfl
  · rw [(modelBoolController_setValue_nonEmpty ctxEmpty mdBool exampleForm false rfl).1]
    rfl

/-- The option scan of the multiple-choice controller keeps, in options
order, exactly the options whose indexed form key is non-empty. -/
theorem multipleChoiceScan_eq_filter (ctx : Context) (s : String) (opts : List String) (i : Nat) :
    multipleChoiceScan ctx s i opts =
      ((opts.enumFrom i).filter
        (fun p => ctx.Request.FormValue (s ++ "_" ++ toString p.1) != "")).map Prod.snd := by
  induction opts generalizing i with
  | nil => rfl
  | cons o rest ih =>
    simp only [multipleChoiceScan, List.enumFrom, List.filter_cons]
    cases hc : ctx.Request.FormValue (s ++ "_" ++ toString i) != "" <;> simp [hc, ih]

/-- C4: after `ModelMultipleChoiceController.SetValue` the field's selected
set equals exactly those options, in options order, whose indexed form key
`<selector>_<i>` has a non-empty value; the previous selection does not
influence the result (options not among the checked boxes are dropped), and
a second submission of the same form yields the same set (no accumulation
across calls). -/
theorem multipleChoice_setValue_rebuild (ctx : Context) (md : MetaData) (form : Form) (sel : List String)
    (h : md.value = .multipleChoice sel) :
    ModelMultipleChoiceController.SetValue ctx md form =
      .ok (.multipleChoice ((md.Options.enum.filter
        (fun p => ctx.Request.FormValue (md.Selector ++ "_" ++ toString p.1) != "")).map Prod.snd)) ∧
    (∀ sel' : List String,
      ModelMultipleChoiceController.SetValue ctx { md with value := .multipleChoice sel' } form =
        ModelMultipleChoiceController.SetValue ctx md form) ∧
    (∀ result : List String,
      ModelMultipleChoiceController.SetValue ctx md form = .ok (.multipleChoice result) →
      ModelMultipleChoiceController.SetValue ctx { md with value := .multipleChoice result } form =
        .ok (.multipleChoice result)) := by
  obtain ⟨s, v, ml, opts, att⟩ := md
  cases h
  refine ⟨?_, fun sel' => rfl, fun result hres => hres⟩
  show Outcome.ok (ModelValue.multipleChoice (multipleChoiceScan ctx s 0 opts)) = _
  rw [multipleChoiceScan_eq_filter]
  rfl

/-- C4 witness: with options a, b, c, previous selection b, and boxes 0 and
2 checked, the resulting selection is exactly a and c. -/
theorem multipleChoice_setValue_witness :
    ModelMultipleChoiceController.SetValue ctxBoxes02 mdMulti exampleForm
      = .ok (.multipleChoice ["a", "c"]) := by
  rw [(multipleChoice_setValue_rebuild ctxBoxes02 mdMulti exampleForm ["b"] rfl).1]
  rfl

/-- C5: `NewInput` of the single-choice and dynamic-choice controllers
prefixes the rendered options with an empty option exactly when the first
option is not already the empty string (in particular when the options list
is empty), and for dynamic choice the selected index passed to the select
view is incremented by one exactly when the empty option is injected.  The
last part ties the code's guard to that wording: it is true iff the head of
the options list is not the empty string. -/
theorem choice_newInput_emptyOption (md : MetaData) (form : Form) (v : String) (opts : List String) (idx : Int) :
    (md.value = .choice v →
      ModelChoiceController.NewInput false md form = .ok (.select
        { Class := form.FieldInputClass md
          Name := md.Selector
          Model := .strings (if emptyOptionNeeded md.Options then "" :: md.Options else md.Options) v
          Disabled := form.IsFieldDisabled md
          Size := 1 })) ∧
    (md.value = .dynamicChoice opts idx →
      ModelDynamicChoiceController.NewInput false md form = .ok (.select
        { Class := form.FieldInputClass md
          Name := md.Selector
          Model := .indexedStrings (if emptyOptionNeeded opts then "" :: opts else opts)
                     (if emptyOptionNeeded opts then idx + 1 else idx)
          Disabled := form.IsFieldDisabled md
          Size := 1 })) ∧
    (∀ os : List String, emptyOptionNeeded os = true ↔ os.head? ≠ some "") := by
  refine ⟨?_, ?_, ?_⟩
  · intro h
    obtain ⟨s, vv, ml, o, att⟩ := md
    cases h
    cases hc : emptyOptionNeeded o <;>
      simp [ModelChoiceController, MetaData.Options, MetaData.Selector, hc]
  · intro h
    obtain ⟨s, vv, ml, o, att⟩ := md
    cases h
    cases hc : emptyOptionNeeded opts <;>
      simp [ModelDynamicChoiceController, MetaData.Selector, hc]
  · intro os
    cases os with
    | nil => simp [emptyOptionNeeded]
    | cons o rest => simp [emptyOptionNeeded, bne_iff_ne]

/-- C5 witness: options a, b with current value a at index 0 render as
empty, a, b; for dynamic choice the reported index shifts from 0 to 1. -/
theorem choice_newInput_witness :
    ModelChoiceController.NewInput false mdChoiceAB exampleForm = .ok (.select
      { Class := "", Name := "c", Model := .strings ["", "a", "b"] "a", Disabled := false, Size := 1 }) ∧
    ModelDynamicChoiceController.NewInput false mdDynAB exampleForm = .ok (.select
      { Class := "", Name := "d", Model := .indexedStrings ["", "a", "b"] 1, Disabled := false, Size := 1 }) := by
  constructor
  · rw [(choice_newInput_emptyOption mdChoiceAB exampleForm "a" [] 0).1 rfl]
    rfl
  · rw [(choice_newInput_emptyOption mdDynAB exampleForm "" ["a", "b"] 0).2.1 rfl]
    rfl

/-- C6: among the sixteen registered per-type controllers at most one
supports any given field; for every supported model value type exactly one
does; and for a field of an unregistered type none do, so dispatch over the
registered list yields the unsupported-type error for both rendering and
binding. -/
theorem standardControllers_unique_support (md : MetaData) (form : Form) (withLabel : Bool) (ctx : Context) :
    (StandardControllers.filter (fun c => c.Supports md form)).length ≤ 1 ∧
    (md.value.isSupported = true →
      (StandardControllers.filter (fun c => c.Supports md form)).length = 1) ∧
    (md.value.isSupported = false →
      (∀ c ∈ StandardControllers, c.Supports md form = false) ∧
      FormFieldControllers.NewInput StandardControllers withLabel md form
        = .goError (.ErrFormFieldTypeNotSupported md) ∧
      FormFieldControllers.SetValue StandardControllers ctx md form
        = .goError (.ErrFormFieldTypeNotSupported md)) := by
  obtain ⟨s, v, ml, opts, att⟩ := md
  cases v
  case other n =>
    refine ⟨Nat.zero_le 1, ?_, ?_⟩
    · intro h
      simp [ModelValue.isSupported] at h
    · intro _
      refine ⟨?_, rfl, rfl⟩
      intro c hc
      simp only [StandardControllers, List.mem_cons, List.not_mem_nil, or_false] at hc
      rcases hc with rfl | rfl | rfl | rfl | rfl | rfl | rfl | rfl | rfl | rfl | rfl | rfl | rfl | rfl | rfl | rfl <;> rfl
  all_goals
    refine ⟨Nat.le_refl 1, fun _ => rfl, ?_⟩
    intro h
    simp [ModelValue.isSupported] at h

/-- C6 witness: a string field is claimed by exactly one of the sixteen
controllers; a field of an unregistered type is claimed by none, and
binding it through the registered list returns the unsupported-type
error carrying its descriptor. -/
theorem standardControllers_unique_support_witness :
    (StandardControllers.filter (fun c => c.Supports mdString exampleForm)).length = 1 ∧
    FormFieldControllers.SetValue StandardControllers ctxEmpty mdOther exampleForm
      = .goError (.ErrFormFieldTypeNotSupported mdOther) := by
  constructor
  · exact (standardControllers_unique_support mdString exampleForm false ctxEmpty).2.1 rfl
  · exact ((standardControllers_unique_support mdOther exampleForm false ctxEmpty).2.2 rfl).2.2

/-- String concatenation is associative (used to normalize the output
stream equations). -/
theorem string_append_assoc (a b c : String) : a ++ b ++ c = a ++ (b ++ c) := by
  rcases a with ⟨da⟩
  rcases b with ⟨db⟩
  rcases c with ⟨dc⟩
  show String.mk (da ++ db ++ dc) = String.mk (da ++ (db ++ dc))
  rw [List.append_assoc]

/-- C7: `Span.Render` writes a balanced span tag pair to the stream: the id
attribute is always emitted and the class attribute only when `Class` is
non-default (non-empty); with content present it is rendered between the
open and close tags, and when the child's render fails the closing tag is
still written and the child's error is returned unchanged (the overall
output is the open tag, the content and the literal closing tag, in that
order, and the returned error is the child's). -/
theorem span_render_balanced (x : XmlWriter) (i cl content : String) (e : Option GoError)
    (h : x.pendingOpen = false) :
    (cl = "" →
      (Span.Render { id := i, Class := cl, Content := none } { XML := x } =
        ({ XML := { out := x.out ++ "<span id=\"" ++ i ++ "\"></span>"
                    openTags := x.openTags
                    pendingOpen := false } }, none)) ∧
      (Span.Render { id := i, Class := cl, Content := some (writerChild content e) } { XML := x } =
        ({ XML := { out := x.out ++ "<span id=\"" ++ i ++ "\">" ++ content ++ "</span>"
                    openTags := x.openTags
                    pendingOpen := false } }, e))) ∧
    (cl ≠ "" →
      (Span.Render { id := i, Class := cl, Content := none } { XML := x } =
        ({ XML := { out := x.out ++ "<span id=\"" ++ i ++ "\" class=\"" ++ cl ++ "\"></span>"
                    openTags := x.openTags
                    pendingOpen := false } }, none)) ∧
      (Span.Render { id := i, Class := cl, Content := some (writerChild content e) } { XML := x } =
        ({ XML := { out := x.out ++ "<span id=\"" ++ i ++ "\" class=\"" ++ cl ++ "\">" ++ content ++ "</span>"
                    openTags := x.openTags
                    pendingOpen := false } }, e))) := by
  obtain ⟨xout, xtags, xpending⟩ := x
  simp only at h
  subst h
  constructor
  · rintro rfl
    constructor <;>
      simp [Span.Render, XmlWriter.OpenTag, XmlWriter.Attrib, XmlWriter.AttribIfNotDefault,
        XmlWriter.ForceCloseTag, XmlWriter.flushOpen, XmlWriter.writeContent, writerChild,
        string_append_assoc]
  · intro hcl
    have hcl' : (cl != "") = true := by simpa [bne_iff_ne] using hcl
    constructor <;>
      simp [Span.Render, XmlWriter.OpenTag, XmlWriter.Attrib, XmlWriter.AttribIfNotDefault,
        XmlWriter.ForceCloseTag, XmlWriter.flushOpen, XmlWriter.writeContent, writerChild,
        hcl', string_append_assoc]

/-- C7 witness: a span with id s1, class c and a child that writes "hi" and
fails renders the complete balanced element and propagates the error. -/
theorem span_render_witness :
    Span.Render { id := "s1", Class := "c", Content := some (writerChild "hi" (some (.dataAccess "boom"))) }
        { XML := { out := "", openTags := [], pendingOpen := false } } =
      ({ XML := { out := "<span id=\"s1\" class=\"c\">hi</span>", openTags := [], pendingOpen := false } },
        some (.dataAccess "boom")) := by
  rw [((span_render_balanced { out := "", openTags := [], pendingOpen := false }
    "s1" "c" "hi" (some (.dataAccess "boom")) rfl).2 (by decide)).2]
  rfl

/-- C8: for a string or password field with a declared max length, the
rendered text field stores the limit as `MaxLength`, and its `Size` is the
requested visual size clamped to the limit: the limit whenever it is
smaller than the requested size, the requested size otherwise. -/
theorem textField_maxlen_clamp (md : MetaData) (form : Form) (s : String) (m : Int) :
    (md.value = .string s → md.maxlen = some m →
      ModelStringController.NewInput false md form = .ok (.textField
        { Class := form.FieldInputClass md
          Name := md.Selector
          Text := s
          Size := if m < form.GetInputSize md then m else form.GetInputSize md
          MaxLength := m
          Disabled := form.IsFieldDisabled md
          Placeholder := form.InputFieldPlaceholder md })) ∧
    (md.value = .password s → md.maxlen = some m →
      ModelPasswordController.NewInput false md form = .ok (.textField
        { Class := form.FieldInputClass md
          Name := md.Selector
          Type' := .password
          Text := s
          Size := if m < form.GetInputSize md then m else form.GetInputSize md
          MaxLength := m
          Disabled := form.IsFieldDisabled md
          Placeholder := form.InputFieldPlaceholder md })) := by
  constructor <;>
  · intro h hm
    obtain ⟨sel, v, ml, opts, att⟩ := md
    cases h
    simp only at hm
    subst hm
    rfl

/-- C8 witness: declared max length 5 with requested visual size 10 yields
a rendered width of 5, for both the string and the password controller. -/
theorem textField_maxlen_witness :
    ModelStringController.NewInput false mdStringMax5 exampleForm = .ok (.textField
      { Class := "", Name := "name", Text := "abc", Size := 5, MaxLength := 5,
        Disabled := false, Placeholder := "" }) ∧
    ModelPasswordController.NewInput false mdPasswordMax5 exampleForm = .ok (.textField
      { Class := "", Name := "pw", Type' := .password, Text := "secret", Size := 5, MaxLength := 5,
        Disabled := false, Placeholder := "" }) := by
  constructor
  · rw [(textField_maxlen_clamp mdStringMax5 exampleForm "abc" 5).1 rfl rfl]
    rfl
  · rw [(textField_maxlen_clamp mdPasswordMax5 exampleForm "secret" 5).2 rfl rfl]
    rfl

/-- Definitional characterization of the file controller's traced
`SetValue` on a file-typed descriptor. -/
theorem fileSetValueTraced_eq (ctx : Context) (sel n : String) (d : List Nat)
    (ml : Option Int) (opts : List String) (att : List (String × String)) (form : Form) :
    ModelFileController.setValueTraced ctx
        { selector := sel, value := .file n d, maxlen := ml, options := opts, attribs := att } form =
      match ctx.Request.FormFile sel with
      | .error e => .ok { err := some e, value := .file n d, closed := false }
      | .ok upload =>
        match upload.ReadAll with
        | .error e => .ok { err := some e, value := .file n d, closed := true }
        | .ok bytes => .ok { err := none, value := .file upload.Filename bytes, closed := true } := rfl

/-- Definitional characterization of the blob controller's traced
`SetValue` on a blob-typed descriptor. -/
theorem blobSetValueTraced_eq (ctx : Context) (sel : String) (d : List Nat)
    (ml : Option Int) (opts : List String) (att : List (String × String)) (form : Form) :
    ModelBlobController.setValueTraced ctx
        { selector := sel, value := .blob d, maxlen := ml, options := opts, attribs := att } form =
      match ctx.Request.FormFile sel with
      | .error e => .ok { err := some e, value := .blob d, closed := false }
      | .ok upload =>
        match upload.ReadAll with
        | .error e => .ok { err := some e, value := .blob d, closed := true }
        | .ok bytes => .ok { err := none, value := .blob bytes, closed := true } := rfl

/-- C9: for file and blob fields, `SetValue` reads the whole uploaded
payload into memory and, on success, stores the full payload (and for file
fields the uploaded filename) into the model; a multipart-retrieval or read
error is returned to the caller unmodified; and once the upload stream has
been opened, it is closed before returning whether or not reading
succeeded. -/
theorem file_blob_setValue_payload (ctx : Context) (md : MetaData) (form : Form)
    (name : String) (data bytes : List Nat) (up : UploadFile) (e : GoError) :
    (md.value = .file name data →
      (ctx.Request.FormFile md.Selector = .error e →
        ModelFileController.setValueTraced ctx md form =
          .ok { err := some e, value := .file name data, closed := false }) ∧
      (ctx.Request.FormFile md.Selector = .ok up →
        (up.ReadAll = .error e →
          ModelFileController.setValueTraced ctx md form =
            .ok { err := some e, value := .file name data, closed := true }) ∧
        (up.ReadAll = .ok bytes →
          ModelFileController.setValueTraced ctx md form =
            .ok { err := none, value := .file up.Filename bytes, closed := true }))) ∧
    (md.value = .blob data →
      (ctx.Request.FormFile md.Selector = .error e →
        ModelBlobController.setValueTraced ctx md form =
          .ok { err := some e, value := .blob data, closed := false }) ∧
      (ctx.Request.FormFile md.Selector = .ok up →
        (up.ReadAll = .error e →
          ModelBlobController.setValueTraced ctx md form =
            .ok { err := some e, value := .blob data, closed := true }) ∧
        (up.ReadAll = .ok bytes →
          ModelBlobController.setValueTraced ctx md form =
            .ok { err := none, value := .blob bytes, closed := true }))) := by
  constructor
  · intro h
    obtain ⟨sel, v, ml, opts, att⟩ := md
    cases h
    refine ⟨fun hf => ?_, fun hf => ⟨fun hr => ?_, fun hr => ?_⟩⟩ <;>
      simp only [MetaData.Selector] at hf <;>
      rw [fileSetValueTraced_eq]
    · simp [hf]
    · simp [hf, hr]
    · simp [hf, hr]
  · intro h
    obtain ⟨sel, v, ml, opts, att⟩ := md
    cases h
    refine ⟨fun hf => ?_, fun hf => ⟨fun hr => ?_, fun hr => ?_⟩⟩ <;>
      simp only [MetaData.Selector] at hf <;>
      rw [blobSetValueTraced_eq]
    · simp [hf]
    · simp [hf, hr]
    · simp [hf, hr]

/-- C9 witness: an upload named x.png with three bytes stores that name and
the full three-byte payload with the stream closed; a read failure leaves
the blob value alone, returns the error, and the stream is still closed. -/
theorem file_blob_setValue_witness :
    ModelFileController.setValueTraced ctxUpload mdFile exampleForm =
      .ok { err := none, value := .file "x.png" [1, 2, 3], closed := true } ∧
    ModelBlobController.setValueTraced ctxUploadReadFail mdBlob exampleForm =
      .ok { err := some (.dataAccess "unexpected EOF"), value := .blob [9], closed := true } := by
  constructor
  · exact (((file_blob_setValue_payload ctxUpload mdFile exampleForm "old.txt" [9] [1, 2, 3]
      { Filename := "x.png", ReadAll := .ok [1, 2, 3] } (.dataAccess "unused")).1 rfl).2 rfl).2 rfl
  · exact (((file_blob_setValue_payload ctxUploadReadFail mdBlob exampleForm "unused" [9] []
      { Filename := "x.png", ReadAll := .error (.dataAccess "unexpected EOF") }
      (.dataAccess "unexpected EOF")).2 rfl).2 rfl).1 rfl

/-- C10 (implicit): whenever the file or blob `SetValue` returns an error
(multipart retrieval failure or read failure), the model field is left
completely unchanged — the stored name and payload are written only after
the entire upload has been read successfully. -/
theorem file_blob_setValue_error_unchanged (ctx : Context) (md : MetaData) (form : Form) (t : SetValueTrace) :
    (ModelFileController.setValueTraced ctx md form = .ok t → t.err.isSome = true → t.value = md.value) ∧
    (ModelBlobController.setValueTraced ctx md form = .ok t → t.err.isSome = true → t.value = md.value) := by
  obtain ⟨sel, v, ml, opts, att⟩ := md
  constructor
  · intro h herr
    cases v
    case file n d =>
      rw [fileSetValueTraced_eq] at h
      split at h
      · injection h with h2
        subst h2
        rfl
      · split at h
        · injection h with h2
          subst h2
          rfl
        · injection h with h2
          subst h2
          exact absurd herr (by simp)
    all_goals
      unfold ModelFileController.setValueTraced at h
      exact absurd h (by simp)
  · intro h herr
    cases v
    case blob d =>
      rw [blobSetValueTraced_eq] at h
      split at h
      · injection h with h2
        subst h2
        rfl
      · split at h
        · injection h with h2
          subst h2
          rfl
        · injection h with h2
          subst h2
          exact absurd herr (by simp)
    all_goals
      unfold ModelBlobController.setValueTraced at h
      exact absurd h (by simp)

/-- C10 witness: at a failing read the file value is unchanged; at a
missing multipart file the blob value is unchanged. -/
theorem file_blob_error_unchanged_witness :
    SetValueTrace.value
        { err := some (GoError.dataAccess "unexpected EOF"), value := .file "old.txt" [9], closed := true }
      = mdFile.value ∧
    SetValueTrace.value
        { err := some (GoError.dataAccess "missing file"), value := .blob [9], closed := false }
      = mdBlob.value := by
  constructor
  · exact (file_blob_setValue_error_unchanged ctxUploadReadFail mdFile exampleForm _).1 rfl rfl
  · exact (file_blob_setValue_error_unchanged ctxEmpty mdBlob exampleForm _).2 rfl rfl

end GoStart









